import Mathlib

/-!
Verification of the sync-buffer and delivery-resilience subsystem of the
Aldelo Windows agent (`src/smart_agent.py`, with the extraction dictionary
shape from `src/tools/access_db.py`).

The development shallowly embeds:
* the JSON payload values stored in the durable queue, together with models
  of the Python `json.dumps` / `json.loads` pair used by `SyncBuffer`
  (`Json`, `dumps`, `loads`);
* the SQLite-backed `SyncBuffer` (tables `pending_sync` and `sync_history`)
  as explicit list-of-rows states with the operations `add_pending`,
  `get_pending`, `mark_synced`, `mark_failed`;
* the delivery loop `SmartAgent.push_to_api`, the redelivery phase
  `SmartAgent.sync_pending`, the chunker `SmartAgent._chunk_data` and the
  cycle driver `SmartAgent.run_extraction_job`, with the network, the clock,
  uuid generation and observed durations supplied as explicit oracles.
-/

/-- Modelled from the spec: JSON values, the payload language of the Python
`json` standard-library module used by `SyncBuffer.add_pending` and
`SyncBuffer.get_pending` (the module itself is outside the repository).
Numeric literals are modelled as integers (float formatting is abstracted),
and object fields keep their insertion order, as Python dicts do. -/
inductive Json where
  | null
  | bool (b : Bool)
  | num (n : Int)
  | str (s : String)
  | arr (elems : List Json)
  | obj (fields : List (String × Json))

/-- Decimal digit character, `chr(48 + d)` for `d < 10`. -/
def digitChar (d : Nat) : Char := Char.ofNat (48 + d)

/-- Decimal representation of a natural number, most significant digit first. -/
def natChars (n : Nat) : List Char :=
  if _ : n < 10 then [digitChar n]
  else natChars (n / 10) ++ [digitChar (n % 10)]
termination_by n
decreasing_by exact Nat.div_lt_self (by omega) (by omega)

/-- Decimal representation of an integer, `-` prefix for negatives. -/
def intChars (n : Int) : List Char :=
  if n < 0 then '-' :: natChars n.natAbs else natChars n.toNat

/-- String-body escaping of the encoder: quote and backslash get a
backslash prefix, every other character is kept verbatim. -/
def escChars : List Char → List Char
  | [] => []
  | c :: r => if c = '"' ∨ c = '\\' then '\\' :: c :: escChars r else c :: escChars r

/-- A JSON string literal: quote, escaped body, quote. -/
def strChars (s : String) : List Char := '"' :: (escChars s.data ++ ['"'])

mutual

/-- Modelled from the spec: `json.dumps` with its default separators
(`", "` between items, `": "` between key and value), producing the
serialized payload text stored in the `pending_sync.payload` column. -/
def dumpsChars : Json → List Char
  | .null => 'n' :: ['u', 'l', 'l']
  | .bool true => 't' :: ['r', 'u', 'e']
  | .bool false => 'f' :: ['a', 'l', 's', 'e']
  | .num n => intChars n
  | .str s => strChars s
  | .arr [] => ['[', ']']
  | .arr (x :: xs) => '[' :: (dumpsChars x ++ dumpsArrSep xs)
  | .obj [] => ['{', '}']
  | .obj ((k, v) :: kvs) =>
      '{' :: (strChars k ++ ':' :: ' ' :: (dumpsChars v ++ dumpsObjSep kvs))

/-- Remaining array items, each preceded by `", "`, then the closing bracket. -/
def dumpsArrSep : List Json → List Char
  | [] => [']']
  | x :: xs => ',' :: ' ' :: (dumpsChars x ++ dumpsArrSep xs)

/-- Remaining object fields, each preceded by `", "`, then the closing brace. -/
def dumpsObjSep : List (String × Json) → List Char
  | [] => ['}']
  | (k, v) :: kvs =>
      ',' :: ' ' :: (strChars k ++ ':' :: ' ' :: (dumpsChars v ++ dumpsObjSep kvs))

end

/-- The serialized form of a payload, as stored by `add_pending`. -/
def dumps (j : Json) : String := String.mk (dumpsChars j)

/-- Unescape one escaped character of a string body. -/
def unescChar (c : Char) : Option Char :=
  if c = '"' then some '"' else if c = '\\' then some '\\' else none

/-- Parse a string body up to the closing quote, returning the content and
the remaining input. -/
def parseStrBody : List Char → Option (List Char × List Char)
  | [] => none
  | c :: r =>
    if c = '"' then some ([], r)
    else if c = '\\' then
      match r with
      | [] => none
      | c2 :: r2 =>
        match unescChar c2 with
        | none => none
        | some c3 => (parseStrBody r2).map (fun p => (c3 :: p.1, p.2))
    else (parseStrBody r).map (fun p => (c :: p.1, p.2))

/-- Consume leading decimal digits, accumulating their value. -/
def parseDigits : List Char → Nat → Nat × List Char
  | [], acc => (acc, [])
  | c :: r, acc =>
    if c.isDigit then parseDigits r (acc * 10 + (c.toNat - 48)) else (acc, c :: r)

/-- Parse a nonempty run of decimal digits. -/
def parseNum : List Char → Option (Nat × List Char)
  | [] => none
  | c :: r => if c.isDigit then some (parseDigits (c :: r) 0) else none

/-- Whether the input starts with the given character. -/
def headIs (ch : Char) : List Char → Bool
  | c :: _ => c = ch
  | [] => false

/-- Expect the given literal characters at the front of the input, returning
what follows them. -/
def dropLit : List Char → List Char → Option (List Char)
  | [], r => some r
  | _ :: _, [] => none
  | c :: cs, c2 :: r2 => if c2 = c then dropLit cs r2 else none

mutual

/-- Modelled from the spec: the value parser of `json.loads`, restricted to
the output language of `dumpsChars`. Fuel bounds the recursion depth; any
fuel exceeding the input length is enough. -/
def parseValue : Nat → List Char → Option (Json × List Char)
  | 0, _ => none
  | _ + 1, [] => none
  | f + 1, c :: r =>
    if c = 'n' then
      (dropLit ['u', 'l', 'l'] r).map (fun r2 => (.null, r2))
    else if c = 't' then
      (dropLit ['r', 'u', 'e'] r).map (fun r2 => (.bool true, r2))
    else if c = 'f' then
      (dropLit ['a', 'l', 's', 'e'] r).map (fun r2 => (.bool false, r2))
    else if c = '"' then
      (parseStrBody r).map (fun p => (.str (String.mk p.1), p.2))
    else if c = '[' then
      if headIs ']' r then some (.arr [], r.tail)
      else
        (parseValue f r).bind (fun p =>
          (parseArrTail f p.2).map (fun q => (.arr (p.1 :: q.1), q.2)))
    else if c = '{' then
      if headIs '}' r then some (.obj [], r.tail)
      else if headIs '"' r then
        (parseStrBody r.tail).bind (fun kp =>
          match kp.2 with
          | ':' :: ' ' :: r3 =>
            (parseValue f r3).bind (fun p =>
              (parseObjTail f p.2).map (fun q =>
                (.obj ((String.mk kp.1, p.1) :: q.1), q.2)))
          | _ => none)
      else none
    else if c = '-' then
      (parseNum r).map (fun p => (.num (-(p.1 : Int)), p.2))
    else if c.isDigit then
      (parseNum (c :: r)).map (fun p => (.num (p.1 : Int), p.2))
    else none

/-- After one array element: either the closing bracket or `", "` and a
further element. -/
def parseArrTail : Nat → List Char → Option (List Json × List Char)
  | 0, _ => none
  | _ + 1, [] => none
  | f + 1, c :: r =>
    if c = ']' then some ([], r)
    else if c = ',' then
      if headIs ' ' r then
        (parseValue f r.tail).bind (fun p =>
          (parseArrTail f p.2).map (fun q => (p.1 :: q.1, q.2)))
      else none
    else none

/-- After one object field: either the closing brace or `", "` and a
further key-value pair. -/
def parseObjTail : Nat → List Char → Option (List (String × Json) × List Char)
  | 0, _ => none
  | _ + 1, [] => none
  | f + 1, c :: r =>
    if c = '}' then some ([], r)
    else if c = ',' then
      if headIs ' ' r then
        if headIs '"' r.tail then
          (parseStrBody r.tail.tail).bind (fun kp =>
            match kp.2 with
            | ':' :: ' ' :: r3 =>
              (parseValue f r3).bind (fun p =>
                (parseObjTail f p.2).map (fun q =>
                  ((String.mk kp.1, p.1) :: q.1, q.2)))
            | _ => none)
        else none
      else none
    else none

end

/-- Modelled from the spec: `json.loads` — parse a full value and reject
trailing input. -/
def loads (s : String) : Option Json :=
  match parseValue (s.data.length + 1) s.data with
  | some (j, []) => some j
  | _ => none

/-- Input does not begin with a decimal digit (so a preceding numeral
cannot absorb it). -/
def noDigitHead : List Char → Bool
  | [] => true
  | c :: _ => !c.isDigit

/-- A structured extraction result: named record collections, as the Python
dict from collection name to list of records (records kept abstract in `α`).
-/
abbrev RecData (α : Type) : Type := List (String × List α)

/-- Dictionary lookup with default, `data.get(key, [])`. -/
def getCol {α : Type} (d : RecData α) (k : String) : List α :=
  match d.find? (fun kv => kv.1 == k) with
  | some kv => kv.2
  | none => []

/-- Consecutive slices `l[i:i+n]` for `i in range(0, len(l), n)`, with fuel
equal to the list length (enough for any positive `n`). -/
def sliceChunksAux {α : Type} (n : Nat) : Nat → List α → List (List α)
  | _, [] => []
  | 0, _ :: _ => []
  | fuel + 1, l => l.take n :: sliceChunksAux n fuel (l.drop n)

/-- All consecutive slices of at most `n` elements of a list (`[]` for the
empty list, mirroring the empty Python range). -/
def sliceChunks {α : Type} (n : Nat) (l : List α) : List (List α) :=
  sliceChunksAux n l.length l

/-- Model of `SmartAgent._chunk_data`: reads the collections under the keys
`orderheaders`, `orderpayments` and `accountinvoiceerp` (any other key of
the input is never read); if their combined size is within `chunk_size`
the input is returned as a single chunk, otherwise each of the three is
sliced independently, each slice emitted as a chunk with the other two
collections empty. -/
def chunk_data {α : Type} (data : RecData α) (chunk_size : Nat) : List (RecData α × Nat) :=
  let orderheaders := getCol data "orderheaders"
  let orderpayments := getCol data "orderpayments"
  let invoices := getCol data "accountinvoiceerp"
  let total := orderheaders.length + orderpayments.length + invoices.length
  if total ≤ chunk_size then [(data, total)]
  else
    ((sliceChunks chunk_size orderheaders).map (fun c =>
      (([("orderheaders", c), ("orderpayments", []), ("accountinvoiceerp", [])] : RecData α),
        c.length)))
    ++ ((sliceChunks chunk_size orderpayments).map (fun c =>
      (([("orderheaders", []), ("orderpayments", c), ("accountinvoiceerp", [])] : RecData α),
        c.length)))
    ++ ((sliceChunks chunk_size invoices).map (fun c =>
      (([("orderheaders", []), ("orderpayments", []), ("accountinvoiceerp", c)] : RecData α),
        c.length)))

/-- The dictionary shape produced by `extract_all_data` in
`src/tools/access_db.py`: keys `orderheaders`, `orderpayments`,
`account_invoice_erp` and `orderdetails`. -/
def extract_all_data_dict {α : Type} (oh op inv od : List α) : RecData α :=
  [("orderheaders", oh), ("orderpayments", op), ("account_invoice_erp", inv),
   ("orderdetails", od)]

/-- Total record count across all collections,
`sum(len(v) for v in data.values())`. -/
def totalRecords {α : Type} (d : RecData α) : Nat :=
  (d.map (fun kv => kv.2.length)).sum

/-- A row of the `pending_sync` table. Timestamps are modelled as naturals
(the ISO text column is totally ordered; only its order is used), and the
payload column holds the serialized JSON text. -/
structure PendingRow where
  id : String
  store_id : String
  payload : String
  record_count : Nat
  created_at : Nat
  retry_count : Nat
  last_error : Option String
  status : String
deriving DecidableEq

/-- A row of the `sync_history` table. -/
structure HistoryRow where
  id : String
  store_id : String
  record_count : Nat
  synced_at : Nat
  duration_seconds : Rat
  status : String
  error_message : Option String
deriving DecidableEq

/-- State of the `SyncBuffer` SQLite database: the `pending_sync` and
`sync_history` tables as lists of rows in insertion order. -/
structure BufferState where
  pending : List PendingRow
  history : List HistoryRow
deriving DecidableEq

/-- One element of the list returned by `get_pending`: the selected columns,
with the payload text parsed back by `json.loads`. -/
structure PendingEntry where
  id : String
  store_id : String
  payload : Option Json
  record_count : Nat
  retry_count : Nat

/-- Order on pending rows used by `ORDER BY created_at ASC`. -/
def rowLE (a b : PendingRow) : Prop := a.created_at ≤ b.created_at

instance : DecidableRel rowLE := fun a b => Nat.decLe a.created_at b.created_at

instance : IsTotal PendingRow rowLE := ⟨fun a b => Nat.le_total a.created_at b.created_at⟩

instance : IsTrans PendingRow rowLE := ⟨fun _ _ _ => Nat.le_trans⟩

/-- Model of `SyncBuffer.add_pending`: insert a fresh pending row with the
serialized payload, `retry_count = 0`, default status `pending`, and return
the generated id (`sync_id` stands for the fresh `uuid4`, `now` for
`datetime.now()`). -/
def add_pending (s : BufferState) (sync_id store_id : String) (payload : Json)
    (record_count : Nat) (now : Nat) : BufferState × String :=
  ({ s with pending := s.pending ++
      [{ id := sync_id, store_id := store_id, payload := dumps payload,
         record_count := record_count, created_at := now, retry_count := 0,
         last_error := none, status := "pending" }] }, sync_id)

/-- The rows selected by `get_pending`: status `pending`, ordered by
`created_at` ascending, at most `limit` of them. -/
def pendingRows (s : BufferState) (limit : Nat) : List PendingRow :=
  ((s.pending.filter (fun r => r.status == "pending")).insertionSort rowLE).take limit

/-- The entry view of a selected row, payload parsed back from its text. -/
def entryOfRow (r : PendingRow) : PendingEntry :=
  { id := r.id, store_id := r.store_id, payload := loads r.payload,
    record_count := r.record_count, retry_count := r.retry_count }

/-- Model of `SyncBuffer.get_pending`. -/
def get_pending (s : BufferState) (limit : Nat) : List PendingEntry :=
  (pendingRows s limit).map entryOfRow

/-- Model of `SyncBuffer.mark_synced`: look up the row, and if present,
append a success record to history and delete the row from pending; if the
id is absent, do nothing (`now` stands for `datetime.now()`). -/
def mark_synced (s : BufferState) (sync_id : String) (duration : Rat) (now : Nat) :
    BufferState :=
  match s.pending.find? (fun r => r.id == sync_id) with
  | none => s
  | some row =>
    { pending := s.pending.filter (fun r => r.id != sync_id),
      history := s.history ++
        [{ id := sync_id, store_id := row.store_id, record_count := row.record_count,
           synced_at := now, duration_seconds := duration, status := "success",
           error_message := none }] }

/-- Model of `SyncBuffer.mark_failed`: increment `retry_count` and overwrite
`last_error` on every row with the given id (an absent id updates nothing).
-/
def mark_failed (s : BufferState) (sync_id : String) (error : String) : BufferState :=
  { s with pending := s.pending.map (fun r =>
      if r.id == sync_id then
        { r with retry_count := r.retry_count + 1, last_error := some error }
      else r) }

/-- Outcome of one HTTP transport call in `push_to_api`: a 200 response,
a non-200 response with its status and body text, or a request exception
(connection error or timeout) with its message. -/
inductive TransportResult where
  | success
  | httpError (status : Nat) (body : String)
  | connError (msg : String)

/-- Whether the transport call counts as a success (`status_code == 200`). -/
def TransportResult.isOk : TransportResult → Bool
  | success => true
  | httpError _ _ => false
  | connError _ => false

/-- The error message recorded for a failed transport call:
`"HTTP {status}: {text[:200]}"` for a non-200 response, the exception
message for a request exception. -/
def TransportResult.errMsg : TransportResult → String
  | success => ""
  | httpError status body => "HTTP " ++ toString status ++ ": " ++ body.take 200
  | connError msg => msg

/-- Result of the retry loop of `push_to_api`: final success flag, number of
transport calls made, the sleeps performed in order, and the last observed
error message. -/
structure LoopOut where
  ok : Bool
  attempts : Nat
  sleeps : List Nat
  lastErr : Option String
deriving DecidableEq

/-- The retry loop of `push_to_api` over the listed attempt numbers
(`range(1, max_retries + 1)` at the call site): return on the first 200;
after a failed attempt numbered below `max_retries`, sleep
`base_delay * 2 ^ (attempt - 1)`. -/
def pushLoop (tr : Nat → TransportResult) (max_retries base_delay : Nat) :
    List Nat → LoopOut
  | [] => { ok := false, attempts := 0, sleeps := [], lastErr := none }
  | a :: rest =>
    if (tr a).isOk then { ok := true, attempts := 1, sleeps := [], lastErr := none }
    else
      let out := pushLoop tr max_retries base_delay rest
      { ok := out.ok,
        attempts := out.attempts + 1,
        sleeps := (if a < max_retries then [base_delay * 2 ^ (a - 1)] else []) ++ out.sleeps,
        lastErr := some (out.lastErr.getD (tr a).errMsg) }

/-- Result of `push_to_api`: its boolean return value, the transport calls
and sleeps it made, the last error message, and the buffer state after the
call. -/
structure PushResult where
  ok : Bool
  attempts : Nat
  sleeps : List Nat
  lastError : Option String
  buffer : BufferState
deriving DecidableEq

/-- Model of `SmartAgent.push_to_api`: run the retry loop over attempts
`1 .. max_retries`; on success with a `sync_id`, `mark_synced` with the
observed duration; after exhausting all retries with a `sync_id`,
`mark_failed` with the last error message. The transport outcome of each
attempt is the oracle `tr`; `duration` is the observed elapsed time and
`now` the clock at the buffer update. -/
def push_to_api (s : BufferState) (tr : Nat → TransportResult)
    (max_retries base_delay : Nat) (sync_id : Option String) (duration : Rat)
    (now : Nat) : PushResult :=
  let out := pushLoop tr max_retries base_delay (List.range' 1 max_retries)
  if out.ok then
    { ok := true, attempts := out.attempts, sleeps := out.sleeps, lastError := none,
      buffer := match sync_id with
        | some sid => mark_synced s sid duration now
        | none => s }
  else
    { ok := false, attempts := out.attempts, sleeps := out.sleeps, lastError := out.lastErr,
      buffer := match sync_id with
        | some sid => mark_failed s sid (out.lastErr.getD "")
        | none => s }

/-- The delivery oracles of one cycle: per-push transport outcomes (indexed
by the running count of `push_to_api` calls, then by attempt number), the
retry configuration, and the observed durations and clock values per push
call. -/
structure SyncEnv where
  trs : Nat → Nat → TransportResult
  maxRetries : Nat
  baseDelay : Nat
  durs : Nat → Rat
  nows : Nat → Nat

/-- The loop body of `SmartAgent.sync_pending` over the fetched entries:
skip (leaving the buffer untouched) any entry with `retry_count >= 10`;
otherwise deliver with the entry's id as `sync_id`, continuing on success
and stopping the loop on failure. Returns the buffer and the number of
`push_to_api` calls made; `k` numbers the push calls. -/
def syncLoop (env : SyncEnv) : List PendingEntry → BufferState → Nat → BufferState × Nat
  | [], s, k => (s, k)
  | it :: rest, s, k =>
    if 10 ≤ it.retry_count then syncLoop env rest s k
    else
      let res := push_to_api s (env.trs k) env.maxRetries env.baseDelay (some it.id)
        (env.durs k) (env.nows k)
      if res.ok then syncLoop env rest res.buffer (k + 1)
      else (res.buffer, k + 1)

/-- Model of `SmartAgent.sync_pending`: fetch up to 5 pending batches
(oldest first) and run the redelivery loop over them. -/
def sync_pending (s : BufferState) (env : SyncEnv) : BufferState × Nat :=
  syncLoop env (get_pending s 5) s 0

/-- Everything `run_extraction_job` consumes beyond the buffer state: the
delivery oracles, fresh uuids and clock values for re-buffered chunks
(indexed by the running count of enqueues), the configured store id, the
formatted extraction time, and the JSON form of a record. -/
structure CycleEnv (α : Type) where
  sync : SyncEnv
  ids : Nat → String
  enqNows : Nat → Nat
  store_id : String
  extraction_time : String
  recJson : α → Json

/-- The JSON form of an extraction dictionary. -/
def dataToJson {α : Type} (recJson : α → Json) (d : RecData α) : Json :=
  Json.obj (d.map (fun kv => (kv.1, Json.arr (kv.2.map recJson))))

/-- The delivery payload built for one chunk by `run_extraction_job`. -/
def chunkPayload {α : Type} (env : CycleEnv α) (nChunks idx : Nat) (cd : RecData α)
    (cnt : Nat) : Json :=
  Json.obj [("store_id", Json.str env.store_id),
            ("data", dataToJson env.recJson cd),
            ("extraction_time", Json.str env.extraction_time),
            ("agent_version", Json.str "2.0.0"),
            ("chunk_info", Json.obj [
               ("chunk_number", Json.num ((idx : Int) + 1)),
               ("total_chunks", Json.num (nChunks : Int)),
               ("chunk_records", Json.num (cnt : Int))])]

/-- Outcome of the chunk-and-deliver phase: final buffer, number of push
calls, ids enqueued for re-buffered chunks, and the success and failure
record counters. -/
structure Phase3Out where
  buffer : BufferState
  pushes : Nat
  enqueued : List String
  success_count : Nat
  failed_count : Nat

/-- The chunk loop of `run_extraction_job`: deliver each chunk in order with
no `sync_id`; on failure, buffer the chunk's payload via `add_pending` and
continue with the next chunk. `idx` is the chunk index, `k` the running
push-call counter, `enq` the running enqueue counter. -/
def chunkLoop {α : Type} (env : CycleEnv α) (nChunks : Nat) :
    List (RecData α × Nat) → Nat → Nat → Nat → BufferState → Phase3Out
  | [], _, _, _, s =>
    { buffer := s, pushes := 0, enqueued := [], success_count := 0, failed_count := 0 }
  | (cd, cnt) :: rest, idx, k, enq, s =>
    let res := push_to_api s (env.sync.trs k) env.sync.maxRetries env.sync.baseDelay none
      (env.sync.durs k) (env.sync.nows k)
    if res.ok then
      let out := chunkLoop env nChunks rest (idx + 1) (k + 1) enq res.buffer
      { out with
        pushes := out.pushes + 1
        success_count := out.success_count + cnt }
    else
      let payload := chunkPayload env nChunks idx cd cnt
      let s2 := (add_pending res.buffer (env.ids enq) env.store_id payload cnt
        (env.enqNows enq)).1
      let out := chunkLoop env nChunks rest (idx + 1) (k + 1) (enq + 1) s2
      { out with
        pushes := out.pushes + 1
        enqueued := env.ids enq :: out.enqueued
        failed_count := out.failed_count + cnt }

/-- Outcome of one full cycle of `run_extraction_job`. -/
structure CycleOut where
  buffer : BufferState
  phase1Pushes : Nat
  chunksBuilt : Nat
  phase3Pushes : Nat
  enqueued : List String
  success_count : Nat
  failed_count : Nat

/-- Model of `SmartAgent.run_extraction_job`: first the redelivery phase
(`sync_pending`), then extraction (`extractRes` is its outcome: `none` for
a failed or empty extraction); if there is no data or the total record
count is zero the cycle ends; otherwise chunk with `chunk_size = 5000` and
run the chunk-and-deliver loop. -/
def run_extraction_job {α : Type} (env : CycleEnv α) (s : BufferState)
    (extractRes : Option (RecData α)) : CycleOut :=
  let p1 := sync_pending s env.sync
  match extractRes with
  | none =>
    { buffer := p1.1, phase1Pushes := p1.2, chunksBuilt := 0, phase3Pushes := 0,
      enqueued := [], success_count := 0, failed_count := 0 }
  | some data =>
    if totalRecords data = 0 then
      { buffer := p1.1, phase1Pushes := p1.2, chunksBuilt := 0, phase3Pushes := 0,
        enqueued := [], success_count := 0, failed_count := 0 }
    else
      let chunks := chunk_data data 5000
      let out := chunkLoop env chunks.length chunks 0 p1.2 0 p1.1
      { buffer := out.buffer, phase1Pushes := p1.2, chunksBuilt := chunks.length,
        phase3Pushes := out.pushes, enqueued := out.enqueued,
        success_count := out.success_count, failed_count := out.failed_count }

/-- A concrete extraction result: three order headers, no payments, one
ERP invoice record, no order details. -/
def c1_input : RecData Nat := extract_all_data_dict [1, 2, 3] [] [7] []

/-- A buffer holding one pending batch with id `a`. -/
def buf_a : BufferState :=
  { pending := [⟨"a", "s1", "null", 1, 0, 0, none, "pending"⟩], history := [] }

/-- The empty buffer. -/
def emptyBuf : BufferState := { pending := [], history := [] }

/-- A transport on which every call raises a connection error. -/
def trFail : Nat → TransportResult := fun _ => TransportResult.connError "connection refused"

/-- A transport on which every call returns HTTP 200. -/
def trOk : Nat → TransportResult := fun _ => TransportResult.success

/-- Cycle oracles with an always-failing transport and one retry. -/
def env0 : SyncEnv :=
  { trs := fun _ _ => TransportResult.connError "down", maxRetries := 1, baseDelay := 1,
    durs := fun _ => 0, nows := fun _ => 0 }

/-- A fetched entry already at the abandonment ceiling. -/
def itSkip : PendingEntry :=
  { id := "a", store_id := "s1", payload := none, record_count := 1, retry_count := 10 }

/-- A fetched entry below the abandonment ceiling. -/
def itGo : PendingEntry :=
  { id := "a", store_id := "s1", payload := none, record_count := 1, retry_count := 0 }

/-- Example cycle environment over `Nat` records. -/
def cenv0 : CycleEnv Nat :=
  { sync := env0, ids := fun _ => "fresh", enqNows := fun _ => 0, store_id := "store",
    extraction_time := "2026-01-01 00:00:00", recJson := fun n => Json.num (n : Int) }

/-- A one-record extraction result. -/
def d0 : RecData Nat := [("orderheaders", [5])]

/-- An example payload value. -/
def pEx : Json :=
  Json.obj [("orderheaders", Json.arr [Json.num 1, Json.str "a"]), ("count", Json.num (-2))]

/-- Digit characters are digits and decode back to their value. -/
theorem digitChar_spec : ∀ d, d < 10 → (digitChar d).isDigit = true ∧ (digitChar d).toNat - 48 = d := by
  decide

/-- A digit character is none of the dispatch characters of the value parser. -/
theorem isDigit_ne (c : Char) (h : c.isDigit = true) :
    c ≠ '"' ∧ c ≠ '[' ∧ c ≠ '{' ∧ c ≠ '-' ∧ c ≠ 'n' ∧ c ≠ 't' ∧ c ≠ 'f' ∧
    c ≠ ']' ∧ c ≠ ',' ∧ c ≠ '}' := by
  refine ⟨?_, ?_, ?_, ?_, ?_, ?_, ?_, ?_, ?_, ?_⟩ <;>
    (intro he; subst he; exact absurd h (by decide))

/-- A decimal numeral is nonempty and starts with a digit. -/
theorem natChars_head (n : Nat) : ∃ c t, natChars n = c :: t ∧ c.isDigit = true := by
  induction n using Nat.strong_induction_on with
  | _ n ih =>
    by_cases h : n < 10
    · exact ⟨digitChar n, [], by rw [natChars]; simp [h], (digitChar_spec n h).1⟩
    · obtain ⟨c, t, hct, hd⟩ := ih (n / 10) (Nat.div_lt_self (by omega) (by omega))
      exact ⟨c, t ++ [digitChar (n % 10)], by rw [natChars]; simp [h, hct], hd⟩

/-- Digit accumulation stops at a non-digit boundary. -/
theorem parseDigits_stop (rest : List Char) (acc : Nat) (h : noDigitHead rest = true) :
    parseDigits rest acc = (acc, rest) := by
  cases rest with
  | nil => rfl
  | cons c r =>
    simp only [noDigitHead, Bool.not_eq_true'] at h
    simp [parseDigits, h]

/-- Consuming a numeral folds its value into the accumulator. -/
theorem parseDigits_natChars (n : Nat) : ∀ (acc : Nat) (rest : List Char),
    parseDigits (natChars n ++ rest) acc = parseDigits rest (acc * 10 ^ (natChars n).length + n) := by
  induction n using Nat.strong_induction_on with
  | _ n ih =>
    intro acc rest
    by_cases h : n < 10
    · rw [natChars]
      simp only [h, dite_true, List.singleton_append, List.length_singleton]
      obtain ⟨hd, hv⟩ := digitChar_spec n h
      simp [parseDigits, hd, hv]
    · rw [natChars]
      simp only [h, dite_false, List.append_assoc, List.singleton_append,
        List.length_append, List.length_singleton]
      rw [ih (n / 10) (Nat.div_lt_self (by omega) (by omega))]
      obtain ⟨hd, hv⟩ := digitChar_spec (n % 10) (Nat.mod_lt _ (by omega))
      simp only [parseDigits, hd, if_true, hv]
      congr 1
      rw [pow_succ]
      have h2 : n / 10 * 10 + n % 10 = n := by omega
      calc (acc * 10 ^ (natChars (n / 10)).length + n / 10) * 10 + n % 10
          = acc * (10 ^ (natChars (n / 10)).length * 10) + (n / 10 * 10 + n % 10) := by ring
        _ = acc * (10 ^ (natChars (n / 10)).length * 10) + n := by rw [h2]

/-- Parsing a numeral followed by a non-digit boundary yields its value. -/
theorem parseNum_natChars (n : Nat) (rest : List Char) (h : noDigitHead rest = true) :
    parseNum (natChars n ++ rest) = some (n, rest) := by
  obtain ⟨c, t, hct, hd⟩ := natChars_head n
  rw [hct, List.cons_append]
  simp only [parseNum, hd, if_true]
  rw [← List.cons_append, ← hct, parseDigits_natChars, parseDigits_stop _ _ h]
  simp

/-- Round-trip for escaped string bodies: the body parser undoes the
encoder's escaping, stopping at the closing quote. -/
theorem parseStrBody_esc : ∀ (s rest : List Char),
    parseStrBody (escChars s ++ '"' :: rest) = some (s, rest) := by
  intro s
  induction s with
  | nil =>
    intro rest
    show parseStrBody ('"' :: rest) = some ([], rest)
    rw [parseStrBody.eq_def]; simp
  | cons c s ih =>
    intro rest
    by_cases hc : c = '"' ∨ c = '\\'
    · rw [escChars, if_pos hc]
      rcases hc with hc | hc <;> subst hc <;>
        (rw [List.cons_append, List.cons_append, parseStrBody.eq_def];
         simp [unescChar, ih])
    · push_neg at hc
      rw [escChars, if_neg (by tauto), List.cons_append, parseStrBody.eq_def]
      simp [hc.1, hc.2, ih]

/-- Every serialized value is nonempty, and its first character identifies
its kind to the parser's dispatch. -/
theorem dumpsChars_head (j : Json) : ∃ c t, dumpsChars j = c :: t ∧
    (c = 'n' ∨ c = 't' ∨ c = 'f' ∨ c = '"' ∨ c = '[' ∨ c = '{' ∨ c = '-' ∨ c.isDigit = true) := by
  cases j with
  | null => exact ⟨'n', _, rfl, by tauto⟩
  | bool b =>
    cases b
    · exact ⟨'f', _, rfl, by tauto⟩
    · exact ⟨'t', _, rfl, by tauto⟩
  | num n =>
    by_cases h : n < 0
    · exact ⟨'-', natChars n.natAbs, by simp [dumpsChars, intChars, h], by tauto⟩
    · obtain ⟨c, t, hct, hd⟩ := natChars_head n.toNat
      exact ⟨c, t, by simp [dumpsChars, intChars, h, hct], by tauto⟩
  | str s => exact ⟨'"', _, rfl, by tauto⟩
  | arr xs =>
    cases xs with
    | nil => exact ⟨'[', _, rfl, by tauto⟩
    | cons x xs => exact ⟨'[', _, rfl, by tauto⟩
  | obj kvs =>
    cases kvs with
    | nil => exact ⟨'{', _, rfl, by tauto⟩
    | cons kv kvs =>
      obtain ⟨k, v⟩ := kv
      exact ⟨'{', _, rfl, by tauto⟩

/-- A serialized value never starts with a closing bracket. -/
theorem dumpsChars_head_ne (j : Json) {c : Char} {t : List Char}
    (h : dumpsChars j = c :: t) : c ≠ ']' ∧ c ≠ '}' := by
  obtain ⟨c2, t2, h2, hk⟩ := dumpsChars_head j
  rw [h] at h2
  obtain ⟨rfl, rfl⟩ : c2 = c ∧ t2 = t := by
    constructor <;> [exact (List.cons.injEq .. ▸ h2).1.symm; exact (List.cons.injEq .. ▸ h2).2.symm]
  rcases hk with h | h | h | h | h | h | h | h <;>
    first
      | (subst h; exact ⟨by decide, by decide⟩)
      | exact ⟨(isDigit_ne c2 h).2.2.2.2.2.2.2.1, (isDigit_ne c2 h).2.2.2.2.2.2.2.2.2⟩

/-- Serialized values are nonempty. -/
theorem dumpsChars_length_pos (j : Json) : 0 < (dumpsChars j).length := by
  obtain ⟨c, t, h, _⟩ := dumpsChars_head j
  simp [h]

/-- The serialized tail of an array never begins with a digit. -/
theorem noDigitHead_arrSep (xs : List Json) (rest : List Char) :
    noDigitHead (dumpsArrSep xs ++ rest) = true := by
  cases xs with
  | nil => simp [dumpsArrSep, noDigitHead]
  | cons x xs => simp [dumpsArrSep, noDigitHead]

/-- The serialized tail of an object never begins with a digit. -/
theorem noDigitHead_objSep (kvs : List (String × Json)) (rest : List Char) :
    noDigitHead (dumpsObjSep kvs ++ rest) = true := by
  cases kvs with
  | nil => simp [dumpsObjSep, noDigitHead]
  | cons kv kvs =>
    obtain ⟨k, v⟩ := kv
    simp [dumpsObjSep, noDigitHead]

/-- Rebuilding a string from its character data gives it back. -/
theorem string_mk_data (s : String) : String.mk s.data = s := rfl

/-- Reduction of the value parser on an array opener whose content does not
close immediately. -/
theorem parseValue_lbrack (f : Nat) (c : Char) (t : List Char) (h : c ≠ ']') :
    parseValue (f + 1) ('[' :: c :: t) =
      (parseValue f (c :: t)).bind (fun p =>
        (parseArrTail f p.2).map (fun q => (.arr (p.1 :: q.1), q.2))) := by
  rw [parseValue]
  simp [headIs, h]

/-- Reduction of the value parser on a digit head. -/
theorem parseValue_digit (f : Nat) (c : Char) (t : List Char) (hd : c.isDigit = true) :
    parseValue (f + 1) (c :: t) =
      (parseNum (c :: t)).map (fun p => (.num (p.1 : Int), p.2)) := by
  obtain ⟨h1, h2, h3, h4, h5, h6, h7, _, _, _⟩ := isDigit_ne c hd
  rw [parseValue]
  simp [h1, h2, h3, h4, h5, h6, h7, hd]

/-- Reduction of the value parser on a minus sign. -/
theorem parseValue_minus (f : Nat) (rest : List Char) :
    parseValue (f + 1) ('-' :: rest) =
      (parseNum rest).map (fun p => (.num (-(p.1 : Int)), p.2)) := by
  rw [parseValue]
  simp

/-- Reduction of the value parser on an opening quote. -/
theorem parseValue_quote (f : Nat) (X : List Char) :
    parseValue (f + 1) ('"' :: X) =
      (parseStrBody X).map (fun p => (.str (String.mk p.1), p.2)) := by
  rw [parseValue]
  simp

/-- Reduction of the value parser on an object opener followed by a key. -/
theorem parseValue_obj_key (f : Nat) (X : List Char) :
    parseValue (f + 1) ('{' :: '"' :: X) =
      (parseStrBody X).bind (fun kp =>
        match kp.2 with
        | ':' :: ' ' :: r3 =>
          (parseValue f r3).bind (fun p =>
            (parseObjTail f p.2).map (fun q => (.obj ((String.mk kp.1, p.1) :: q.1), q.2)))
        | _ => none) := by
  rw [parseValue]
  simp [headIs]

/-- Reduction of the array-tail parser on a separator. -/
theorem parseArrTail_comma (f : Nat) (X : List Char) :
    parseArrTail (f + 1) (',' :: ' ' :: X) =
      (parseValue f X).bind (fun p =>
        (parseArrTail f p.2).map (fun q => (p.1 :: q.1, q.2))) := by
  rw [parseArrTail]
  simp [headIs]

/-- Reduction of the object-tail parser on a separator followed by a key. -/
theorem parseObjTail_comma (f : Nat) (X : List Char) :
    parseObjTail (f + 1) (',' :: ' ' :: '"' :: X) =
      (parseStrBody X).bind (fun kp =>
        match kp.2 with
        | ':' :: ' ' :: r3 =>
          (parseValue f r3).bind (fun p =>
            (parseObjTail f p.2).map (fun q => ((String.mk kp.1, p.1) :: q.1, q.2)))
        | _ => none) := by
  rw [parseObjTail]
  simp [headIs]

/-- Round-trip of the serializer and the parser, for all three productions
at once: parsing a serialized value (or serialized array tail, or object
tail) consumes exactly it and returns the original, for any fuel exceeding
the input length and any continuation that does not begin with a digit. -/
theorem parse_dumps (fuel : Nat) :
    (∀ (j : Json) (rest : List Char), (dumpsChars j).length + rest.length < fuel →
        noDigitHead rest = true →
        parseValue fuel (dumpsChars j ++ rest) = some (j, rest)) ∧
    (∀ (xs : List Json) (rest : List Char), (dumpsArrSep xs).length + rest.length < fuel →
        noDigitHead rest = true →
        parseArrTail fuel (dumpsArrSep xs ++ rest) = some (xs, rest)) ∧
    (∀ (kvs : List (String × Json)) (rest : List Char),
        (dumpsObjSep kvs).length + rest.length < fuel →
        noDigitHead rest = true →
        parseObjTail fuel (dumpsObjSep kvs ++ rest) = some (kvs, rest)) := by
  induction fuel with
  | zero =>
    exact ⟨fun j rest h => absurd h (by omega),
           fun xs rest h => absurd h (by omega),
           fun kvs rest h => absurd h (by omega)⟩
  | succ f ih =>
    obtain ⟨ihv, iht, iho⟩ := ih
    refine ⟨?_, ?_, ?_⟩
    · intro j rest hlen hrest
      cases j with
      | null =>
        simp only [dumpsChars, List.cons_append, List.nil_append]
        rfl
      | bool b =>
        cases b <;> (simp only [dumpsChars, List.cons_append, List.nil_append]; rfl)
      | num n =>
        simp only [dumpsChars]
        by_cases hn : n < 0
        · rw [intChars, if_pos hn, List.cons_append, parseValue_minus,
            parseNum_natChars _ _ hrest]
          have h2 : -(n.natAbs : Int) = n := by omega
          rw [Option.map_some', h2]
        · rw [intChars, if_neg hn]
          obtain ⟨c, t, hct, hd⟩ := natChars_head n.toNat
          rw [hct, List.cons_append, parseValue_digit f c _ hd, ← List.cons_append, ← hct,
            parseNum_natChars _ _ hrest]
          have h2 : (n.toNat : Int) = n := by omega
          rw [Option.map_some', h2]
      | str s =>
        simp only [dumpsChars]
        rw [strChars, List.cons_append, List.append_assoc, List.singleton_append,
          parseValue_quote, parseStrBody_esc]
        simp [string_mk_data]
      | arr xs =>
        cases xs with
        | nil =>
          simp only [dumpsChars, List.cons_append, List.nil_append]
          rfl
        | cons x xs =>
          simp only [dumpsChars, List.length_cons, List.length_append] at hlen
          simp only [dumpsChars, List.cons_append, List.append_assoc]
          obtain ⟨c, t, hct, _⟩ := dumpsChars_head x
          have hne := (dumpsChars_head_ne x hct).1
          have hp := dumpsChars_length_pos x
          rw [hct, List.cons_append, parseValue_lbrack f c _ hne, ← List.cons_append, ← hct]
          rw [ihv x (dumpsArrSep xs ++ rest)
            (by simp only [List.length_append]; omega) (noDigitHead_arrSep xs rest)]
          rw [Option.some_bind]
          rw [iht xs rest (by omega) hrest, Option.map_some']
      | obj kvs =>
        cases kvs with
        | nil =>
          simp only [dumpsChars, List.cons_append, List.nil_append]
          rfl
        | cons kv kvs =>
          obtain ⟨k, v⟩ := kv
          simp only [dumpsChars, strChars, List.length_cons, List.length_append,
            List.length_singleton] at hlen
          have hp := dumpsChars_length_pos v
          simp only [dumpsChars, strChars, List.cons_append, List.append_assoc,
            List.singleton_append, List.nil_append]
          rw [parseValue_obj_key,
            parseStrBody_esc k.data (':' :: ' ' :: (dumpsChars v ++ (dumpsObjSep kvs ++ rest))),
            Option.some_bind]
          have hv := ihv v (dumpsObjSep kvs ++ rest)
            (by simp only [List.length_append]; omega) (noDigitHead_objSep kvs rest)
          have ho := iho kvs rest (by omega) hrest
          simp [hv, ho, string_mk_data]
    · intro xs rest hlen hrest
      cases xs with
      | nil =>
        simp only [dumpsArrSep, List.cons_append, List.nil_append]
        rfl
      | cons x xs =>
        simp only [dumpsArrSep, List.length_cons, List.length_append] at hlen
        have hp := dumpsChars_length_pos x
        simp only [dumpsArrSep, List.cons_append, List.append_assoc]
        rw [parseArrTail_comma]
        rw [ihv x (dumpsArrSep xs ++ rest)
          (by simp only [List.length_append]; omega) (noDigitHead_arrSep xs rest)]
        rw [Option.some_bind]
        rw [iht xs rest (by omega) hrest, Option.map_some']
    · intro kvs rest hlen hrest
      cases kvs with
      | nil =>
        simp only [dumpsObjSep, List.cons_append, List.nil_append]
        rfl
      | cons kv kvs =>
        obtain ⟨k, v⟩ := kv
        simp only [dumpsObjSep, strChars, List.length_cons, List.length_append,
          List.length_singleton] at hlen
        have hp := dumpsChars_length_pos v
        simp only [dumpsObjSep, strChars, List.cons_append, List.append_assoc,
          List.singleton_append, List.nil_append]
        rw [parseObjTail_comma,
          parseStrBody_esc k.data (':' :: ' ' :: (dumpsChars v ++ (dumpsObjSep kvs ++ rest))),
          Option.some_bind]
        have hv := ihv v (dumpsObjSep kvs ++ rest)
          (by simp only [List.length_append]; omega) (noDigitHead_objSep kvs rest)
        have ho := iho kvs rest (by omega) hrest
        simp [hv, ho, string_mk_data]

/-- Serialization through the store is a round-trip identity: parsing a
serialized payload returns the payload. -/
theorem loads_dumps (j : Json) : loads (dumps j) = some j := by
  have h := (parse_dumps ((dumpsChars j).length + 1)).1 j []
    (by simp) rfl
  rw [List.append_nil] at h
  show (match parseValue ((dumpsChars j).length + 1) (dumpsChars j) with
    | some (j, []) => some j
    | _ => none) = some j
  rw [h]

/-- On an always-failing transport, the retry loop over attempts
`a .. a+k-1` makes all `k` calls, fails, sleeps the backoff delay after
every attempt numbered below `max_retries`, and reports the error of the
last attempt. -/
theorem pushLoop_allFail (tr : Nat → TransportResult) (max_retries base_delay : Nat)
    (hfail : ∀ i, (tr i).isOk = false) :
    ∀ (k a : Nat), 1 ≤ k →
    pushLoop tr max_retries base_delay (List.range' a k) =
      { ok := false, attempts := k,
        sleeps := ((List.range' a k).filter (fun i => i < max_retries)).map
          (fun i => base_delay * 2 ^ (i - 1)),
        lastErr := some ((tr (a + k - 1)).errMsg) } := by
  intro k
  induction k with
  | zero => intro a h; omega
  | succ k ihk =>
    intro a _
    rw [List.range'_succ a k 1]
    by_cases hk : k = 0
    · subst hk
      by_cases ha : a < max_retries <;>
        simp [pushLoop, List.range', hfail a, ha]
    · rw [pushLoop]
      simp only [hfail a, Bool.false_eq_true, if_false]
      rw [ihk (a + 1) (by omega)]
      have he : a + 1 + k - 1 = a + (k + 1) - 1 := by omega
      by_cases ha : a < max_retries <;>
        simp [List.filter_cons, ha, he]

/-- Among the attempt numbers `1 .. m`, exactly `1 .. m-1` are below `m`. -/
theorem range'_filter_lt (m : Nat) (h : 1 ≤ m) :
    (List.range' 1 m).filter (fun i => i < m) = List.range' 1 (m - 1) := by
  have hm : m = (m - 1) + 1 := by omega
  have hsplit : List.range' 1 m = List.range' 1 (m - 1) ++ [m] := by
    conv_lhs => rw [hm]
    rw [List.range'_concat]
    congr 1
    simp only [one_mul, List.cons.injEq, and_true]
    omega
  rw [hsplit, List.filter_append]
  have h1 : (List.range' 1 (m - 1)).filter (fun i => decide (i < m)) =
      List.range' 1 (m - 1) := by
    apply List.filter_eq_self.mpr
    intro a ha
    rw [List.mem_range'] at ha
    simp only [decide_eq_true_eq]
    omega
  have h2 : ([m] : List Nat).filter (fun i => decide (i < m)) = [] := by
    simp
  rw [h1, h2, List.append_nil]

/-- Behavior of `push_to_api` when every transport call fails: exactly
`max_retries` calls, backoff sleeps after every attempt but the last, a
failure return carrying the last attempt's error message, and — only when a
`sync_id` was supplied — a `mark_failed` on the buffer. -/
theorem push_to_api_allFail (s : BufferState) (tr : Nat → TransportResult)
    (max_retries base_delay : Nat) (sync_id : Option String) (duration : Rat)
    (now : Nat) (hmax : 1 ≤ max_retries) (hfail : ∀ i, (tr i).isOk = false) :
    push_to_api s tr max_retries base_delay sync_id duration now =
      { ok := false, attempts := max_retries,
        sleeps := (List.range' 1 (max_retries - 1)).map
          (fun i => base_delay * 2 ^ (i - 1)),
        lastError := some ((tr max_retries).errMsg),
        buffer := match sync_id with
          | some sid => mark_failed s sid ((tr max_retries).errMsg)
          | none => s } := by
  unfold push_to_api
  rw [pushLoop_allFail tr max_retries base_delay hfail max_retries 1 hmax]
  have he : 1 + max_retries - 1 = max_retries := by omega
  rw [range'_filter_lt max_retries hmax]
  simp [he]

/-- C8: for every extraction result (the four collections produced by
`extract_all_data`) whose total record count across all collections is at
most `chunk_size` — including the empty result — `_chunk_data` returns
exactly one chunk whose data is the input unchanged (its count field is the
sum the code computes over the three keys it reads). -/
theorem chunk_data_small_input_identity {α : Type} (oh op inv od : List α)
    (chunk_size : Nat)
    (h : oh.length + op.length + inv.length + od.length ≤ chunk_size) :
    chunk_data (extract_all_data_dict oh op inv od) chunk_size =
      [(extract_all_data_dict oh op inv od, oh.length + op.length)] := by
  have h1 : getCol (extract_all_data_dict oh op inv od) "orderheaders" = oh := rfl
  have h2 : getCol (extract_all_data_dict oh op inv od) "orderpayments" = op := rfl
  have h3 : getCol (extract_all_data_dict oh op inv od) "accountinvoiceerp" = [] := rfl
  unfold chunk_data
  rw [h1, h2, h3]
  rw [if_pos (by simp only [List.length_nil]; omega)]
  simp

/-- Witness for C8 at concrete inputs, including the empty result. -/
theorem chunk_data_small_input_identity_witness :
    ((10 : Nat) + 20 + 1 + 1 ≤ 40 ∧
      chunk_data (extract_all_data_dict (List.range 10) (List.range 20) [1] [2]) 40 =
        [(extract_all_data_dict (List.range 10) (List.range 20) [1] [2], 30)]) ∧
    chunk_data (extract_all_data_dict ([] : List Nat) [] [] []) 5000 =
      [(extract_all_data_dict [] [] [] [], 0)] :=
  ⟨⟨by decide,
    chunk_data_small_input_identity (List.range 10) (List.range 20) [1] [2] 40 (by decide)⟩,
   chunk_data_small_input_identity [] [] [] [] 5000 (by decide)⟩

/-- C1 (failing input): at the extraction result
`{orderheaders: [1,2,3], orderpayments: [], account_invoice_erp: [7],
orderdetails: []}` with `chunk_size = 2`, the total record count across all
collections is 4 > 2, yet the chunks emitted by `_chunk_data` carry only the
orderheaders slices: the `account_invoice_erp` record 7 appears in no chunk
under any key, because the chunker reads the key `accountinvoiceerp` while
the extractor writes `account_invoice_erp` (and never reads `orderdetails`).
The collection is therefore not reconstructed from the chunks. -/
theorem chunk_data_drops_account_invoice_erp :
    2 < totalRecords c1_input ∧
    getCol c1_input "account_invoice_erp" = [7] ∧
    chunk_data c1_input 2 =
      [([("orderheaders", [1, 2]), ("orderpayments", []), ("accountinvoiceerp", [])], 2),
       ([("orderheaders", [3]), ("orderpayments", []), ("accountinvoiceerp", [])], 1)] ∧
    ((chunk_data c1_input 2).map (fun c => (c.1.map (fun kv => kv.2)).flatten)).flatten
      = [1, 2, 3] := by
  refine ⟨by decide, by decide, by decide, by decide⟩

/-- C2 (counterexample): a single `push_to_api` call with a `sync_id` and a
failing transport changes the contents of the durable queue — the pending
row's `retry_count` is incremented by the call itself. -/
theorem push_to_api_touches_queue :
    (push_to_api buf_a trFail 1 1 (some "a") 0 0).buffer ≠ buf_a := by
  decide

/-- C2 (amended): a `push_to_api` call without a `sync_id` (as in chunk
delivery) has no side effect on the durable queue; with a `sync_id` (as in
redelivery) the engine itself persists the outcome: `mark_synced` on
success, `mark_failed` once all retries are exhausted. -/
theorem push_to_api_queue_effects (s : BufferState) (tr : Nat → TransportResult)
    (max_retries base_delay : Nat) (duration : Rat) (now : Nat) :
    (push_to_api s tr max_retries base_delay none duration now).buffer = s ∧
    (∀ sid, (pushLoop tr max_retries base_delay (List.range' 1 max_retries)).ok = true →
      (push_to_api s tr max_retries base_delay (some sid) duration now).buffer =
        mark_synced s sid duration now) ∧
    (∀ sid, 1 ≤ max_retries → (∀ i, (tr i).isOk = false) →
      (push_to_api s tr max_retries base_delay (some sid) duration now).buffer =
        mark_failed s sid ((tr max_retries).errMsg)) := by
  refine ⟨?_, ?_, ?_⟩
  · simp only [push_to_api]
    by_cases hok : (pushLoop tr max_retries base_delay (List.range' 1 max_retries)).ok = true
    · rw [if_pos hok]
    · rw [if_neg hok]
  · intro sid hok
    simp only [push_to_api]
    rw [if_pos hok]
  · intro sid hmax hfail
    rw [push_to_api_allFail s tr max_retries base_delay (some sid) duration now hmax hfail]

/-- Witness for the amended C2 at concrete inputs: no queue effect without a
sync id; `mark_synced` on first-attempt success; `mark_failed` on
exhaustion. -/
theorem push_to_api_queue_effects_witness :
    (push_to_api buf_a trFail 1 1 none 0 0).buffer = buf_a ∧
    (push_to_api buf_a trOk 1 1 (some "a") 0 0).buffer = mark_synced buf_a "a" 0 0 ∧
    (push_to_api buf_a trFail 1 1 (some "a") 0 0).buffer =
      mark_failed buf_a "a" ((trFail 1).errMsg) :=
  ⟨(push_to_api_queue_effects buf_a trFail 1 1 0 0).1,
   (push_to_api_queue_effects buf_a trOk 1 1 0 0).2.1 "a" (by decide),
   (push_to_api_queue_effects buf_a trFail 1 1 0 0).2.2 "a" (by decide) (fun _ => rfl)⟩

/-- C3: on a transport where every call fails, `push_to_api` with
`max_attempts ≥ 1` makes exactly `max_attempts` transport calls, sleeps
`base_delay * 2 ^ (attempt - 1)` after every failed attempt except the
last, and returns failure carrying the error message observed on the last
attempt. -/
theorem push_to_api_retry_backoff (s : BufferState) (tr : Nat → TransportResult)
    (max_retries base_delay : Nat) (sync_id : Option String) (duration : Rat)
    (now : Nat) (hmax : 1 ≤ max_retries) (hfail : ∀ i, (tr i).isOk = false) :
    (push_to_api s tr max_retries base_delay sync_id duration now).ok = false ∧
    (push_to_api s tr max_retries base_delay sync_id duration now).attempts =
      max_retries ∧
    (push_to_api s tr max_retries base_delay sync_id duration now).sleeps =
      (List.range' 1 (max_retries - 1)).map (fun i => base_delay * 2 ^ (i - 1)) ∧
    (push_to_api s tr max_retries base_delay sync_id duration now).lastError =
      some ((tr max_retries).errMsg) := by
  rw [push_to_api_allFail s tr max_retries base_delay sync_id duration now hmax hfail]
  exact ⟨rfl, rfl, rfl, rfl⟩

/-- Witness for C3 with `max_attempts = 3`, `base_delay = 1`: three calls,
sleeps of 1 then 2 (none after the final attempt), failure with the last
error. -/
theorem push_to_api_retry_backoff_witness :
    (push_to_api emptyBuf trFail 3 1 none 0 0).ok = false ∧
    (push_to_api emptyBuf trFail 3 1 none 0 0).attempts = 3 ∧
    (push_to_api emptyBuf trFail 3 1 none 0 0).sleeps = [1, 2] ∧
    (push_to_api emptyBuf trFail 3 1 none 0 0).lastError = some "connection refused" := by
  have h := push_to_api_retry_backoff emptyBuf trFail 3 1 none 0 0 (by decide)
    (fun _ => rfl)
  refine ⟨h.1, h.2.1, ?_, ?_⟩
  · rw [h.2.2.1]; rfl
  · rw [h.2.2.2]; rfl

/-- C4: `add_pending` followed by `mark_synced` with the returned id (fresh
in the store) removes the batch from pending — so from every subsequent
`get_pending` — and atomically appends exactly one history record whose id,
store id and record count are the batch's and whose duration is the
supplied one. -/
theorem enqueue_then_mark_delivered (s : BufferState) (sync_id store_id : String)
    (p : Json) (rc : Nat) (now1 now2 : Nat) (dur : Rat)
    (hfresh : ∀ r ∈ s.pending, r.id ≠ sync_id) :
    (mark_synced (add_pending s sync_id store_id p rc now1).1 sync_id dur now2).pending =
      s.pending ∧
    (mark_synced (add_pending s sync_id store_id p rc now1).1 sync_id dur now2).history =
      s.history ++ [⟨sync_id, store_id, rc, now2, dur, "success", none⟩] ∧
    (∀ limit, ∀ e ∈ get_pending
        (mark_synced (add_pending s sync_id store_id p rc now1).1 sync_id dur now2) limit,
      e.id ≠ sync_id) := by
  have hfind : (add_pending s sync_id store_id p rc now1).1.pending.find?
      (fun r => r.id == sync_id) =
      some (⟨sync_id, store_id, dumps p, rc, now1, 0, none, "pending"⟩ : PendingRow) := by
    show (s.pending ++ [_]).find? _ = _
    rw [List.find?_append]
    have h0 : s.pending.find? (fun r => r.id == sync_id) = none :=
      List.find?_eq_none.mpr (fun r hr => by simp [hfresh r hr])
    rw [h0]
    simp [List.find?]
  have hfilter : (add_pending s sync_id store_id p rc now1).1.pending.filter
      (fun r => r.id != sync_id) = s.pending := by
    show (s.pending ++ [_]).filter _ = _
    rw [List.filter_append]
    have h1 : s.pending.filter (fun r => r.id != sync_id) = s.pending :=
      List.filter_eq_self.mpr (fun r hr => by simp [hfresh r hr])
    have h2 : ([⟨sync_id, store_id, dumps p, rc, now1, 0, none, "pending"⟩] :
        List PendingRow).filter (fun r => r.id != sync_id) = [] := by
      simp
    rw [h1, h2, List.append_nil]
  have hms : mark_synced (add_pending s sync_id store_id p rc now1).1 sync_id dur now2 =
      { pending := s.pending,
        history := s.history ++ [⟨sync_id, store_id, rc, now2, dur, "success", none⟩] } := by
    simp only [mark_synced, hfind, hfilter]
    rfl
  refine ⟨by rw [hms], by rw [hms], ?_⟩
  intro limit e he
  rw [hms] at he
  obtain ⟨r, hr, rfl⟩ := List.mem_map.mp he
  have h1 : r ∈ (s.pending.filter (fun r => r.status == "pending")).insertionSort rowLE :=
    List.mem_of_mem_take hr
  have h2 : r ∈ s.pending.filter (fun r => r.status == "pending") :=
    (List.perm_insertionSort rowLE _).mem_iff.mp h1
  exact hfresh r (List.mem_filter.mp h2).1

/-- C5: on an id absent from the pending store, `mark_synced` and
`mark_failed` are both no-ops: no error, no new pending or history row, the
entire store state unchanged — so duplicate success signals for the same id
are idempotent. -/
theorem mark_unknown_id_noop (s : BufferState) (sync_id : String) (dur : Rat)
    (now : Nat) (err : String) (h : ∀ r ∈ s.pending, r.id ≠ sync_id) :
    mark_synced s sync_id dur now = s ∧ mark_failed s sync_id err = s := by
  constructor
  · have hfind : s.pending.find? (fun r => r.id == sync_id) = none :=
      List.find?_eq_none.mpr (fun r hr => by simp [h r hr])
    simp only [mark_synced, hfind]
  · have hmap : s.pending.map (fun r =>
        if r.id == sync_id then
          { r with retry_count := r.retry_count + 1, last_error := some err } else r) =
        s.pending := by
      conv_rhs => rw [← List.map_id s.pending]
      apply List.map_congr_left
      intro r hr
      simp [h r hr]
    simp only [mark_failed, hmap]

/-- Witness for C5: on a store holding only the id `a`, both operations on
the unknown id `zzz` leave the store unchanged. -/
theorem mark_unknown_id_noop_witness :
    mark_synced buf_a "zzz" 0 0 = buf_a ∧ mark_failed buf_a "zzz" "e" = buf_a :=
  mark_unknown_id_noop buf_a "zzz" 0 0 "e"
    (by intro r hr; simp only [buf_a, List.mem_singleton] at hr; subst hr; decide)

/-- C6: for every store state and limit, `get_pending` selects only rows
with status `pending`, in non-decreasing `created_at` order, and returns at
most `limit` entries (the entry view of exactly those rows). -/
theorem list_pending_pending_sorted_limited (s : BufferState) (limit : Nat) :
    (∀ r ∈ pendingRows s limit, r.status = "pending") ∧
    List.Sorted rowLE (pendingRows s limit) ∧
    (get_pending s limit).length ≤ limit ∧
    get_pending s limit = (pendingRows s limit).map entryOfRow := by
  refine ⟨?_, ?_, ?_, rfl⟩
  · intro r hr
    have h1 : r ∈ (s.pending.filter (fun r => r.status == "pending")).insertionSort rowLE :=
      List.mem_of_mem_take hr
    have h2 : r ∈ s.pending.filter (fun r => r.status == "pending") :=
      (List.perm_insertionSort rowLE _).mem_iff.mp h1
    have h3 := (List.mem_filter.mp h2).2
    simpa using h3
  · exact (List.sorted_insertionSort rowLE _).sublist (List.take_sublist _ _)
  · simp only [get_pending, List.length_map, pendingRows]
    exact List.length_take_le _ _

/-- C10: enqueueing a payload and retrieving with a large enough limit
yields an entry whose payload is the original payload (serialization
through the store round-trips), and whose id, store id, record count and
`retry_count = 0` are as the enqueue established. -/
theorem enqueue_get_pending_roundtrip (s : BufferState) (sync_id store_id : String)
    (p : Json) (rc : Nat) (now : Nat) (limit : Nat)
    (hlim : s.pending.length + 1 ≤ limit) :
    ({ id := sync_id, store_id := store_id, payload := some p, record_count := rc,
       retry_count := 0 } : PendingEntry) ∈
      get_pending (add_pending s sync_id store_id p rc now).1 limit := by
  have hrowmem : (⟨sync_id, store_id, dumps p, rc, now, 0, none, "pending"⟩ : PendingRow) ∈
      (add_pending s sync_id store_id p rc now).1.pending := by
    show _ ∈ s.pending ++ [_]
    simp
  have hfmem : (⟨sync_id, store_id, dumps p, rc, now, 0, none, "pending"⟩ : PendingRow) ∈
      (add_pending s sync_id store_id p rc now).1.pending.filter
        (fun r => r.status == "pending") :=
    List.mem_filter.mpr ⟨hrowmem, by simp⟩
  have hsortmem : (⟨sync_id, store_id, dumps p, rc, now, 0, none, "pending"⟩ : PendingRow) ∈
      ((add_pending s sync_id store_id p rc now).1.pending.filter
        (fun r => r.status == "pending")).insertionSort rowLE :=
    (List.perm_insertionSort rowLE _).mem_iff.mpr hfmem
  have hlen : (((add_pending s sync_id store_id p rc now).1.pending.filter
      (fun r => r.status == "pending")).insertionSort rowLE).length ≤ limit := by
    rw [List.length_insertionSort]
    have hle : ((add_pending s sync_id store_id p rc now).1.pending.filter
        (fun r => r.status == "pending")).length ≤
        (add_pending s sync_id store_id p rc now).1.pending.length :=
      List.length_filter_le _ _
    have hpl : (add_pending s sync_id store_id p rc now).1.pending.length =
        s.pending.length + 1 := by
      show (s.pending ++ [_]).length = _
      simp
    omega
  have hrows : (⟨sync_id, store_id, dumps p, rc, now, 0, none, "pending"⟩ : PendingRow) ∈
      pendingRows (add_pending s sync_id store_id p rc now).1 limit := by
    rw [pendingRows, List.take_of_length_le hlen]
    exact hsortmem
  have hmem := List.mem_map_of_mem entryOfRow hrows
  have hent : entryOfRow (⟨sync_id, store_id, dumps p, rc, now, 0, none, "pending"⟩ :
      PendingRow) =
      { id := sync_id, store_id := store_id, payload := some p, record_count := rc,
        retry_count := 0 } := by
    simp [entryOfRow, loads_dumps]
  rw [← hent]
  exact hmem

/-- Witness for C4: enqueue into the empty store and mark the batch
delivered; pending is empty again and history gained exactly the matching
record. -/
theorem enqueue_then_mark_delivered_witness :
    (mark_synced (add_pending emptyBuf "u1" "st" pEx 2 0).1 "u1" 2 1).pending =
      emptyBuf.pending ∧
    (mark_synced (add_pending emptyBuf "u1" "st" pEx 2 0).1 "u1" 2 1).history =
      emptyBuf.history ++ [⟨"u1", "st", 2, 1, 2, "success", none⟩] ∧
    (∀ limit, ∀ e ∈ get_pending
        (mark_synced (add_pending emptyBuf "u1" "st" pEx 2 0).1 "u1" 2 1) limit,
      e.id ≠ "u1") :=
  enqueue_then_mark_delivered emptyBuf "u1" "st" pEx 2 0 1 2
    (by intro r hr; simp [emptyBuf] at hr)

/-- Witness for C10: enqueue the example payload into the empty store and
retrieve it with limit 1. -/
theorem enqueue_get_pending_roundtrip_witness :
    ({ id := "u1", store_id := "st", payload := some pEx, record_count := 2,
       retry_count := 0 } : PendingEntry) ∈
      get_pending (add_pending emptyBuf "u1" "st" pEx 2 0).1 1 :=
  enqueue_get_pending_roundtrip emptyBuf "u1" "st" pEx 2 0 1 (by decide)

/-- C7: in the redelivery phase, a fetched batch whose `retry_count` has
reached the hard ceiling of 10 is skipped with the buffer untouched and the
loop continues with the next batch; for any other batch, if its delivery
exhausts all attempts the loop stops at once with exactly `mark_failed`
applied to that batch — its `retry_count` incremented by one and
`last_error` set, every other pending row untouched — and the coordinator
still reaches the extraction and chunking phase of the same cycle whatever
the redelivery phase did to the buffer. -/
theorem redelivery_skip_and_failfast (env : SyncEnv) (it : PendingEntry)
    (rest : List PendingEntry) (s : BufferState) (k : Nat) :
    (10 ≤ it.retry_count →
      syncLoop env (it :: rest) s k = syncLoop env rest s k) ∧
    (it.retry_count < 10 → 1 ≤ env.maxRetries → (∀ i, (env.trs k i).isOk = false) →
      syncLoop env (it :: rest) s k =
        (mark_failed s it.id ((env.trs k env.maxRetries).errMsg), k + 1) ∧
      (∀ r ∈ s.pending, r.id ≠ it.id → r ∈ (syncLoop env (it :: rest) s k).1.pending) ∧
      (∀ r ∈ s.pending, r.id = it.id →
        ({ r with
           retry_count := r.retry_count + 1
           last_error := some ((env.trs k env.maxRetries).errMsg) } : PendingRow) ∈
          (syncLoop env (it :: rest) s k).1.pending)) ∧
    (∀ (α : Type) (cenv : CycleEnv α) (s0 : BufferState) (d : RecData α),
      totalRecords d ≠ 0 →
      (run_extraction_job cenv s0 (some d)).chunksBuilt = (chunk_data d 5000).length) := by
  refine ⟨?_, ?_, ?_⟩
  · intro h
    rw [syncLoop, if_pos h]
  · intro h1 h2 h3
    have hpush := push_to_api_allFail s (env.trs k) env.maxRetries env.baseDelay
      (some it.id) (env.durs k) (env.nows k) h2 h3
    have heq : syncLoop env (it :: rest) s k =
        (mark_failed s it.id ((env.trs k env.maxRetries).errMsg), k + 1) := by
      rw [syncLoop, if_neg (by omega), hpush]
      rfl
    refine ⟨heq, ?_, ?_⟩
    · intro r hr hne
      rw [heq]
      show _ ∈ (mark_failed s it.id ((env.trs k env.maxRetries).errMsg)).pending
      simp only [mark_failed]
      refine List.mem_map.mpr ⟨r, hr, ?_⟩
      simp [hne]
    · intro r hr hid
      rw [heq]
      show _ ∈ (mark_failed s it.id ((env.trs k env.maxRetries).errMsg)).pending
      simp only [mark_failed]
      refine List.mem_map.mpr ⟨r, hr, ?_⟩
      simp [hid]
  · intro α cenv s0 d hd
    simp only [run_extraction_job, hd, if_false]

/-- Witness for C7: a batch at the ceiling is skipped; a fresh batch whose
delivery fails stops the loop with exactly the `mark_failed` state; a
nonempty extraction still yields its chunks in the same cycle. -/
theorem redelivery_skip_and_failfast_witness :
    (syncLoop env0 (itSkip :: []) buf_a 0 = syncLoop env0 [] buf_a 0) ∧
    (syncLoop env0 (itGo :: []) buf_a 0 = (mark_failed buf_a "a" "down", 1)) ∧
    (run_extraction_job cenv0 buf_a (some d0)).chunksBuilt =
      (chunk_data d0 5000).length :=
  ⟨(redelivery_skip_and_failfast env0 itSkip [] buf_a 0).1 (by decide),
   ((redelivery_skip_and_failfast env0 itGo [] buf_a 0).2.1 (by decide) (by decide)
     (fun _ => rfl)).1,
   (redelivery_skip_and_failfast env0 itGo [] buf_a 0).2.2 Nat cenv0 buf_a d0 (by decide)⟩

/-- C9: in every cycle whose extraction phase returns no data or zero total
records, the coordinator performs no chunking, makes no delivery call and
enqueues nothing after the extraction phase: the cycle result is exactly
the redelivery phase's, and if the queue was empty at the start of the
cycle, the whole cycle makes zero delivery calls. -/
theorem empty_extraction_no_delivery (α : Type) (cenv : CycleEnv α) (s : BufferState)
    (extractRes : Option (RecData α))
    (h : extractRes = none ∨ ∃ d, extractRes = some d ∧ totalRecords d = 0) :
    (run_extraction_job cenv s extractRes).buffer = (sync_pending s cenv.sync).1 ∧
    (run_extraction_job cenv s extractRes).phase3Pushes = 0 ∧
    (run_extraction_job cenv s extractRes).chunksBuilt = 0 ∧
    (run_extraction_job cenv s extractRes).enqueued = [] ∧
    (get_pending s 5 = [] → (run_extraction_job cenv s extractRes).phase1Pushes = 0) := by
  have hbase : ∀ h5 : get_pending s 5 = [],
      (sync_pending s cenv.sync).2 = 0 := by
    intro h5
    rw [sync_pending, h5]
    rfl
  rcases h with h | ⟨d, h, hd⟩ <;> subst h
  · exact ⟨rfl, rfl, rfl, rfl, fun h5 => hbase h5⟩
  · refine ⟨?_, ?_, ?_, ?_, ?_⟩
    · simp only [run_extraction_job, hd, if_true]
    · simp only [run_extraction_job, hd, if_true]
    · simp only [run_extraction_job, hd, if_true]
    · simp only [run_extraction_job, hd, if_true]
    · intro h5
      simp only [run_extraction_job, hd, if_true, hbase h5]

/-- Witness for C9: a cycle over the empty store whose extraction returns
nothing performs no chunking, no enqueue, and zero delivery calls in total.
-/
theorem empty_extraction_no_delivery_witness :
    (run_extraction_job cenv0 emptyBuf (none : Option (RecData Nat))).buffer =
      (sync_pending emptyBuf cenv0.sync).1 ∧
    (run_extraction_job cenv0 emptyBuf (none : Option (RecData Nat))).phase3Pushes = 0 ∧
    (run_extraction_job cenv0 emptyBuf (none : Option (RecData Nat))).chunksBuilt = 0 ∧
    (run_extraction_job cenv0 emptyBuf (none : Option (RecData Nat))).enqueued = [] ∧
    (run_extraction_job cenv0 emptyBuf (none : Option (RecData Nat))).phase1Pushes = 0 := by
  have h := empty_extraction_no_delivery Nat cenv0 emptyBuf none (Or.inl rfl)
  exact ⟨h.1, h.2.1, h.2.2.1, h.2.2.2.1, h.2.2.2.2 rfl⟩

/-- Witness for C6 at a concrete store and limit. -/
theorem list_pending_pending_sorted_limited_witness :
    (∀ r ∈ pendingRows buf_a 5, r.status = "pending") ∧
    List.Sorted rowLE (pendingRows buf_a 5) ∧
    (get_pending buf_a 5).length ≤ 5 ∧
    get_pending buf_a 5 = (pendingRows buf_a 5).map entryOfRow :=
  list_pending_pending_sorted_limited buf_a 5
